import Mathlib

/-!
# Verification of the quint-code FPF engine specification

Shallow embedding of the quint-code knowledge-assurance engine
(`m0n0x41d/crucible-code`): the holon/evidence/relation data model
(`src/mcp/schema.sql`), the assurance calculator (package `assurance`,
pinned by its unit tests in the repository), the tools layer and the JSON-RPC
dispatcher (`src/mcp/internal/fpf/server.go`).

Numeric scores are embedded as rationals (`ℚ`).  Every score the repository's
tests exercise (0, 0.1, 0.2, 0.5, 0.6, 0.9, 1.0 and their products by the CL
factors) is produced by `min` and single multiplications of exactly
representable values, for which IEEE-754 double arithmetic agrees with exact
rational arithmetic, so the embedding is faithful on all inputs used here.
-/

namespace Quint

/-- An evidence row, after the `evidence` table of `src/mcp/schema.sql`
(columns used by the calculator and the tools: `id`, `holon_id`, `type`,
`verdict`, `valid_until`, `is_stale`, `stale_reason`), joined with the
`waivers` table (`waived_until`) which the spec's waiver rule consults.
Timestamps are embedded as integers (`none` = SQL NULL). -/
structure Evidence where
  id : String
  holonId : String
  etype : String
  verdict : String
  validUntil : Option Int
  isStale : Bool
  staleReason : String
  waivedUntil : Option Int
  deriving DecidableEq, Repr

/-- A relation row, after the `relations` table of `src/mcp/schema.sql`:
typed directed edge with a congruence level. -/
structure Relation where
  sourceId : String
  targetId : String
  relationType : String
  congruenceLevel : Int
  deriving DecidableEq, Repr

/-- A holon row, after the `holons` table of `src/mcp/schema.sql`
(columns the modelled tools read: `id`, `type`, `kind`, `layer`). -/
structure Holon where
  id : String
  htype : String
  kind : String
  layer : String
  deriving DecidableEq, Repr

/-- An audit-log row, after the `audit_log` table of `src/mcp/schema.sql`. -/
structure AuditEntry where
  toolName : String
  operation : String
  actor : String
  targetId : String
  result : String
  details : String
  deriving DecidableEq, Repr

/-- The FSM phases of `fsm.go` (listed in the spec and in the dispatcher). -/
inductive Phase where
  | idle
  | abduction
  | deduction
  | inductionPhase
  | auditPhase
  | decision
  deriving DecidableEq, Repr

/-- The persistent store plus FSM state: the four tables the claims touch and
the per-context phase.  `now` is the clock the calculator compares
`valid_until` and `waived_until` against. -/
structure Store where
  holons : List Holon
  evidence : List Evidence
  relations : List Relation
  auditLog : List AuditEntry
  phase : Phase
  now : Int
  deriving DecidableEq, Repr

/-- Evidence rows attached to a holon (`GetEvidence`: rows of `evidence`
with the given `holon_id`). -/
def evidenceOf (s : Store) (hid : String) : List Evidence :=
  s.evidence.filter (fun e => e.holonId = hid)

/-- A waiver is active when `waived_until ≥ now` (spec §4.2 step 2). -/
def isWaived (now : Int) (e : Evidence) : Bool :=
  match e.waivedUntil with
  | some t => now ≤ t
  | none => false

/-- Evidence has decayed when `valid_until < now` (strict comparison,
spec §4.2; NULL `valid_until` never decays). -/
def isDecayed (now : Int) (e : Evidence) : Bool :=
  match e.validUntil with
  | some t => t < now
  | none => false

/-- Modelled from the spec: the per-evidence-item score of
`assurance/calculator.go`, which is absent from `src/` (only its unit tests
are present, in the `assurance` package test file).  Cascade order and values
follow spec §4.2 step 2 and the tests `TestCalculateReliability_StaleEvidence`
(stale → 0.2), `_EvidenceDecay` (decayed → 0.1), `_WeakestLink` (fail → 0.0),
`_SelfScore` (pass → 1.0) and `_ExternalEvidencePenalty`
(external pass → 0.9); a waived item counts as pass with score 1.0. -/
def itemScore (now : Int) (e : Evidence) : ℚ :=
  if isWaived now e then 1
  else if e.isStale then 1/5
  else if isDecayed now e then 1/10
  else if e.verdict = "fail" then 0
  else if e.verdict = "degrade" then 1/2
  else if e.etype = "external" then 9/10
  else 1

/-- Modelled from the spec: the factor strings the calculator records for one
evidence item (spec §4.2 step 2, strings pinned by
`TestCalculateReliability_StaleEvidence` and `_ExternalEvidencePenalty`). -/
def itemFactors (now : Int) (e : Evidence) : List String :=
  if isWaived now e then []
  else if e.isStale then ["Evidence stale: " ++ e.staleReason]
  else if isDecayed now e then ["Evidence decayed past " ++ toString e.validUntil.iget]
  else if e.verdict = "fail" then ["Evidence fail"]
  else if e.verdict = "degrade" then []
  else if e.etype = "external" then ["External evidence CL2 penalty applied"]
  else []

/-- Modelled from the spec: the self score of `calculator.go` (absent from
`src/`) — weakest-link minimum of the per-item scores over the holon's
evidence, 0.0 when the holon has no evidence (spec §4.2 step 2). -/
def SelfScore (s : Store) (hid : String) : ℚ :=
  let evs := evidenceOf s hid
  if evs.isEmpty then 0
  else (evs.map (itemScore s.now)).foldl min 1

/-- Modelled from the spec: the factor strings recorded while computing the
self score; `"No evidence"` when the holon has none (spec §4.2 step 2). -/
def SelfFactors (s : Store) (hid : String) : List String :=
  let evs := evidenceOf s hid
  if evs.isEmpty then ["No evidence"]
  else (evs.map (itemFactors s.now)).flatten

/-- The two relation types that carry R_eff dependency (spec §3, and the
WHERE clause exercised by `TestCalculateReliability_WeakestLink`). -/
def isDepRel (t : String) : Bool :=
  t = "componentOf" || t = "constituentOf"

/-- Dependencies of a holon: incoming `componentOf`/`constituentOf` edges
(the row `('B','A','componentOf')` makes `A` depend on `B` in
`TestCalculateReliability_WeakestLink`, so the dependent is the target). -/
def depsOf (s : Store) (hid : String) : List Relation :=
  s.relations.filter (fun r => r.targetId = hid && isDepRel r.relationType)

/-- Modelled from the spec: the congruence-level penalty factor of
`calculateCLPenalty` in `calculator.go` (absent from `src/`).  The repository's
unit test `TestCalculateReliability_CLPenalty` fixes the factor at CL1 to 0.6
and the roadmap describes the current penalty as linear, so the factor is
`1 − 0.2·(3 − cl)` (CL3 → 1.0, CL2 → 0.8, CL1 → 0.6); the spec's table
(CL2 → 0.9, CL1 → 0.7) contradicts that test. -/
def clFactor (cl : Int) : ℚ :=
  1 - ((3 - cl : Int) : ℚ) / 5

/-- Penalised scores of a list of dependencies, given the recursive scorer
`f` for the dependency targets; `none` propagates fuel exhaustion. -/
def depScoreList (f : String → Option ℚ) : List Relation → Option (List ℚ)
  | [] => some []
  | r :: rs =>
    match f r.sourceId, depScoreList f rs with
    | some q, some qs => some (clFactor r.congruenceLevel * q :: qs)
    | _, _ => none

/-- Modelled from the spec: the recursive R_eff computation of
`CalculateReliability` in `calculator.go` (absent from `src/`): depth-first
over incoming dependency edges with a visited set; a dependency already on
the current path is skipped (spec P6 "a back-edge is skipped", pinned by
`TestCalculateReliability_CycleDetection` which expects 1.0 for a 3-cycle of
passing holons); R_eff = min(self score, min of CL-penalised dependency
scores).  Recursion is by explicit fuel; `calcR_isSome` below shows the fuel
used by `CalculateReliability` always suffices. -/
def calcR (s : Store) : Nat → List String → String → Option ℚ
  | 0, _, _ => none
  | fuel + 1, visited, hid =>
    let deps := (depsOf s hid).filter (fun r => decide (r.sourceId ∉ hid :: visited))
    match depScoreList (fun d => calcR s fuel (hid :: visited) d) deps with
    | none => none
    | some [] => some (SelfScore s hid)
    | some (q :: qs) => some (min (SelfScore s hid) (qs.foldl min q))

/-- The holon ids mentioned by any relation; the recursion of `calcR` only
ever descends to members of this list. -/
def idUniverse (s : Store) : List String :=
  (s.relations.map (·.sourceId) ++ s.relations.map (·.targetId)).dedup

/-- Modelled from the spec: entry point of the assurance calculator.
The fuel `|idUniverse| + 1` is enough for any graph (`calcR_isSome`). -/
def CalculateReliability (s : Store) (hid : String) : Option ℚ :=
  calcR s ((idUniverse s).length + 1) [] hid

/-- One dependency step of the calculator: `b` is a dependency of `a`
(an incoming `componentOf`/`constituentOf` edge of `a` with source `b`). -/
def DepStep (s : Store) (a b : String) : Prop :=
  ∃ r, r ∈ s.relations ∧ r.targetId = a ∧ isDepRel r.relationType = true ∧ r.sourceId = b

/-- Reachability: `Reaches s a b` means `b` is in the dependency closure of `a` — the set of
holons whose evidence the calculator may consult when scoring `a`. -/
def Reaches (s : Store) : String → String → Prop :=
  Relation.ReflTransGen (DepStep s)

/-! ## Tools layer

`tools.go` is absent from `src/`; the tools the claims touch are modelled
from the spec (§4.4), with every behaviour that the repository's own tests
pin taken from those tests. -/

/-- The layer of a holon as stored (`holons.layer`). -/
def layerOf (st : Store) (hid : String) : Option String :=
  (st.holons.find? (fun h => h.id = hid)).map (·.layer)

/-- Lookup of a holon by id (GetHolon). -/
def findHolon (st : Store) (hid : String) : Option Holon :=
  st.holons.find? (fun h => h.id = hid)

/-- UpdateHolonLayer: rewrite the layer of the holon with the given id. -/
def setLayer (st : Store) (hid lay : String) : Store :=
  { st with holons := st.holons.map (fun h => if h.id = hid then { h with layer := lay } else h) }

/-- ClearAllEvidenceStaleForHolon: drop the stale mark of every evidence
row of the holon (pinned by `TestStore_ClearAllEvidenceStaleForHolon`). -/
def clearStaleForHolon (evs : List Evidence) (hid : String) : List Evidence :=
  evs.map (fun e => if e.holonId = hid then { e with isStale := false, staleReason := "" } else e)

/-- The `logic_check` evidence row appended by verify (spec §4.4). -/
def logicCheckEvidence (hid checks verdict : String) : Evidence :=
  { id := "logic-check-" ++ hid ++ "-" ++ checks, holonId := hid, etype := "logic_check",
    verdict := verdict, validUntil := none, isStale := false, staleReason := "",
    waivedUntil := none }

/-- Modelled from the spec: `VerifyHypothesis` of `tools.go` (absent from
`src/`).  Appends a `logic_check` evidence record; on verdict PASS promotes
the holon's layer to L1 and clears staleness of all its prior evidence; on
FAIL or REFINE moves the layer to `invalid` and leaves stale marks in place
(spec §4.4 verify; layer moves pinned by `TestVerifyHypothesis`, staleness
behaviour by `TestManageEvidence_ClearsStaleOnPass` and
`TestManageEvidence_KeepsStaleOnFail`). -/
def VerifyHypothesis (st : Store) (hid checks verdict carriers : String) :
    Store × Except String String :=
  if verdict = "PASS" then
    let st1 := setLayer st hid "L1"
    (({ st1 with evidence := clearStaleForHolon st1.evidence hid
                             ++ [logicCheckEvidence hid checks verdict] }),
     Except.ok ("Hypothesis " ++ hid ++ " promoted to L1"))
  else if verdict = "FAIL" ∨ verdict = "REFINE" then
    let st1 := setLayer st hid "invalid"
    (({ st1 with evidence := st1.evidence ++ [logicCheckEvidence hid checks verdict] }),
     Except.ok ("Hypothesis " ++ hid ++ " moved to invalid"))
  else
    (st, Except.error "invalid_argument: verdict must be PASS, FAIL or REFINE")

/-- Printable phase names (`Internalize` output, `ResetCycle` summary). -/
def phaseName : Phase → String
  | Phase.idle => "IDLE"
  | Phase.abduction => "ABDUCTION"
  | Phase.deduction => "DEDUCTION"
  | Phase.inductionPhase => "INDUCTION"
  | Phase.auditPhase => "AUDIT"
  | Phase.decision => "DECISION"

/-- The audit row `ResetCycle` appends (operation `cycle_reset`, tool
`quint_reset`, pinned by `TestResetCycle_AuditLogEntry`). -/
def resetAuditEntry (reason : String) : AuditEntry :=
  { toolName := "quint_reset", operation := "cycle_reset", actor := "agent",
    targetId := "", result := "SUCCESS", details := reason }

/-- Modelled from the spec: `ResetCycle` of `tools.go` (absent from `src/`).
Defaults the reason to "user requested reset", writes one `cycle_reset`
audit entry, sets the phase to IDLE and returns a summary; it creates no
holon and touches no evidence (spec §4.4 reset, `TestResetCycle_Basic`,
`TestResetCycle_DefaultReason`, `TestResetCycle_NoDRRCreated`). -/
def ResetCycle (st : Store) (reason : String) : Store × String :=
  let r := if reason = "" then "user requested reset" else reason
  (({ st with phase := Phase.idle, auditLog := st.auditLog ++ [resetAuditEntry r] }),
   "Cycle reset to IDLE. Previous phase: " ++ phaseName st.phase ++ ". Reason: " ++ r)

/-- Holons of type or layer DRR, as counted by the query in
`TestResetCycle_NoDRRCreated`. -/
def drrCount (st : Store) : Nat :=
  (st.holons.filter (fun h => h.htype = "DRR" || h.layer = "DRR")).length

/-- Bounded reachability along stored edge direction (source → target),
used by the dependency-cycle guard of link and propose. -/
def reachableB (rels : List Relation) : Nat → String → String → Bool
  | 0, a, b => a == b
  | n + 1, a, b =>
    a == b ||
      rels.any (fun r => r.sourceId == a && isDepRel r.relationType &&
        reachableB rels n r.targetId b)

/-- The dependency edge type for a holon kind: `componentOf` for `system`,
`constituentOf` for `episteme` (spec §4.4,
`TestPropose_KindDeterminesRelation`, `TestLinkHolons_EpistemeKind`). -/
def relTypeForKind (kind : String) : String :=
  if kind = "system" then "componentOf" else "constituentOf"

/-- Whether an `Except` result is a success. -/
def isOkE (r : Except String String) : Bool :=
  match r with
  | Except.ok _ => true
  | Except.error _ => false

/-- Modelled from the spec: `LinkHolons` of `tools.go` (absent from `src/`).
Rejects missing holons and cycle-creating or duplicate edges; inserts a
dependency edge source → target typed by the source holon's kind.  A
congruence level outside {1,2,3} is replaced by the default 3 — pinned by
`TestLinkHolons_CLValidation` ("LinkHolons with CL=0 should default to 3"),
where the spec instead calls an invalid CL an `invalid_argument` error. -/
def LinkHolons (st : Store) (src tgt : String) (cl : Int) :
    Store × Except String String :=
  match findHolon st src with
  | none => (st, Except.error ("source holon " ++ src ++ " not found"))
  | some hs =>
    match findHolon st tgt with
    | none => (st, Except.error ("target holon " ++ tgt ++ " not found"))
    | some _ =>
      if reachableB st.relations (st.relations.length + 1) tgt src then
        (st, Except.error "link rejected: would create a dependency cycle")
      else
        let rt := relTypeForKind hs.kind
        if st.relations.any (fun r => r.sourceId == src && r.targetId == tgt && r.relationType == rt) then
          (st, Except.error "link rejected: relation already exists")
        else
          let clv := if 1 ≤ cl ∧ cl ≤ 3 then cl else 3
          (({ st with relations := st.relations ++ [⟨src, tgt, rt, clv⟩] }),
           Except.ok ("Linked " ++ src ++ " -> " ++ tgt ++ " (" ++ rt ++ "). WLNK now applies."))

/-- Lower-case alphanumeric projection of one character (slugify step 1). -/
def slugChar (c : Char) : Char :=
  if c.isAlphanum then c.toLower else '-'

/-- Collapse runs of dashes (slugify step 2). -/
def collapseDash : List Char → List Char
  | [] => []
  | [c] => [c]
  | c :: d :: rest =>
    if c = '-' && d = '-' then collapseDash (d :: rest)
    else c :: collapseDash (d :: rest)

/-- Strip leading and trailing dashes (slugify step 3). -/
def trimDash (cs : List Char) : List Char :=
  ((cs.dropWhile (· = '-')).reverse.dropWhile (· = '-')).reverse

/-- Modelled from the spec: `Slugify` of `tools.go` (absent from `src/`):
lower-case, non-alphanumeric runs → single `-`, strip leading/trailing `-`
(spec §4.4 propose; behaviour pinned by `TestSlugify`). -/
def Slugify (title : String) : String :=
  String.mk (trimDash (collapseDash (title.toList.map slugChar)))

/-- Dependency edges for propose's `depends_on` list: missing targets and
cycle-creating edges are skipped with a warning, never fatal (spec §4.4,
`TestPropose_InvalidDependency`, `TestPropose_CycleDetection`).  Edges run
dependency → new holon (`TestPropose_WithDependsOn` checks
`target_id = 'api-gateway'`). -/
def depEdgesFor (st : Store) (rt hid : String) (cl : Int) :
    List String → List Relation × List String
  | [] => ([], [])
  | d :: ds =>
    let rest := depEdgesFor st rt hid cl ds
    match findHolon st d with
    | none => (rest.1, ("Warning: dependency " ++ d ++ " not found, skipped") :: rest.2)
    | some _ =>
      if reachableB st.relations (st.relations.length + 1) hid d then
        (rest.1, ("Warning: dependency " ++ d ++ " would create a cycle, skipped") :: rest.2)
      else
        (⟨d, hid, rt, cl⟩ :: rest.1, rest.2)

/-- Modelled from the spec: `ProposeHypothesis` of `tools.go` (absent from
`src/`).  Validates `kind ∈ {system, episteme}` and `dependency_cl ∈
{1,2,3}` (spec §4.4), creates an L0 holon with slugified id, inserts
dependency edges (skipping bad ones with warnings) and a `memberOf` edge to
an existing decision context.  The full-text advisory block is omitted: it
only appends text to the output. -/
def ProposeHypothesis (st : Store) (title content scope kind rationale decisionContext : String)
    (dependsOn : List String) (dependencyCL : Int) : Store × Except String String :=
  if ¬ (kind = "system" ∨ kind = "episteme") then
    (st, Except.error "invalid_argument: kind must be system or episteme")
  else if ¬ (1 ≤ dependencyCL ∧ dependencyCL ≤ 3) then
    (st, Except.error "invalid_argument: dependency_cl must be in {1,2,3}")
  else
    let hid := Slugify title
    let newH : Holon := { id := hid, htype := "hypothesis", kind := kind, layer := "L0" }
    let rt := relTypeForKind kind
    let edges := depEdgesFor st rt hid dependencyCL dependsOn
    let memberEdges : List Relation :=
      if decisionContext = "" then []
      else
        match findHolon st decisionContext with
        | some _ => [⟨hid, decisionContext, "memberOf", 3⟩]
        | none => []
    (({ st with holons := st.holons ++ [newH],
                relations := st.relations ++ edges.1 ++ memberEdges }),
     Except.ok (String.intercalate "\n"
       (("Created hypothesis " ++ hid ++ " at L0") :: edges.2)))

/-! ## Dispatcher

`handleToolsCall` (server.go:334–497) is in `src/` and is embedded here
directly.  The precondition checker and the tool bodies live in the absent
`tools.go`, so they enter as parameters: `precond` is the result of
`CheckPreconditions` (`some msg` = blocked) and `body` is the tool body,
a state transformer returning output or error. -/

/-- The text + isError pair of a `CallToolResult` (server.go:36–44). -/
structure CallResult where
  text : String
  isError : Bool
  deriving DecidableEq, Repr

/-- Result of one dispatch: the persisted state, the response, and the audit
entries written by `handleToolsCall` itself (not by the tool body). -/
structure DispatchResult where
  state : Store
  response : CallResult
  dispatcherAudit : List AuditEntry
  deriving DecidableEq, Repr

/-- The BLOCKED audit entry the dispatcher writes when a precondition fails
(server.go:359: `AuditLog(name, "precondition_failed", "agent", "",
"BLOCKED", args, msg)`). -/
def blockedEntry (name msg : String) : AuditEntry :=
  { toolName := name, operation := "precondition_failed", actor := "agent",
    targetId := "", result := "BLOCKED", details := msg }

/-- The phase the dispatcher writes and saves before running the tool body
(server.go:408, 428, 435, 457). -/
def phasePreWrite : String → Option Phase
  | "quint_propose" => some Phase.abduction
  | "quint_verify" => some Phase.deduction
  | "quint_test" => some Phase.inductionPhase
  | "quint_decide" => some Phase.decision
  | _ => none

/-- Embeds the control flow of `handleToolsCall` (server.go:334–497) after
argument parsing: on precondition failure write one BLOCKED audit entry and
answer with a tool error; otherwise write the tool's pre-phase (if any), run
the body, and answer with its output or error.  The dispatcher writes no
audit entry of its own on success or on tool error, performs no rollback,
and wraps nothing in a transaction; on success of `quint_decide` it sets the
phase back to IDLE (server.go:467–471). -/
def handleToolsCall (st : Store) (name : String) (precond : Option String)
    (body : Store → Store × Except String String) : DispatchResult :=
  match precond with
  | some msg =>
    { state := { st with auditLog := st.auditLog ++ [blockedEntry name msg] }
      response := { text := msg, isError := true }
      dispatcherAudit := [blockedEntry name msg] }
  | none =>
    let st1 := match phasePreWrite name with
      | some p => { st with phase := p }
      | none => st
    match body st1 with
    | (st2, Except.ok out) =>
      let st3 := if name = "quint_decide" then { st2 with phase := Phase.idle } else st2
      { state := st3, response := { text := out, isError := false }, dispatcherAudit := [] }
    | (st2, Except.error e) =>
      { state := st2, response := { text := e, isError := true }, dispatcherAudit := [] }

/-! ## JSON argument extraction (server.go:334–356 and the tool cases) -/

/-- A JSON value as `encoding/json` unmarshals it into `interface{}`;
numbers are embedded as integers (every argument the dispatcher converts
with `int(...)` is used as an integer). -/
inductive JVal where
  | str (s : String)
  | num (n : Int)
  | boolean (b : Bool)
  | arr (elems : List JVal)
  | obj
  | null

/-- Lookup in the `arguments` map. -/
def lookupJ : List (String × JVal) → String → Option JVal
  | [], _ => none
  | (k, v) :: rest, key => if k = key then some v else lookupJ rest key

/-- server.go:344–349: `arg(k)` — the string value of an argument, and the
empty string when the argument is absent or not a JSON string. -/
def argStr (args : List (String × JVal)) (k : String) : String :=
  match lookupJ args k with
  | some (JVal.str s) => s
  | _ => ""

/-- server.go:376–377, 402–404, 422–424: `float64` assertion with a
default. -/
def argNum (args : List (String × JVal)) (k : String) (dflt : Int) : Int :=
  match lookupJ args k with
  | some (JVal.num n) => n
  | _ => dflt

/-- server.go:382–385: `bool` assertion, defaulting to false. -/
def argBool (args : List (String × JVal)) (k : String) : Bool :=
  match lookupJ args k with
  | some (JVal.boolean b) => b
  | _ => false

/-- server.go:414–420, 459–465: `[]interface{}` assertion keeping only the
string elements. -/
def argStrList (args : List (String × JVal)) (k : String) : List String :=
  match lookupJ args k with
  | some (JVal.arr xs) => xs.filterMap (fun v => match v with | JVal.str s => some s | _ => none)
  | _ => []

/-- The arguments each tool case reads, as extracted by the `switch` of
`handleToolsCall` (server.go:370–485). -/
inductive ToolCall where
  | internalize
  | search (query scope layerFilter statusFilter affectedScopeFilter : String) (limit : Int)
  | resolveT (decisionId resolution reference supersededBy notes validUntil : String)
      (criteriaVerified : Bool)
  | implementT (decisionId : String)
  | link (sourceId targetId : String) (congruenceLevel : Int)
  | propose (title content scope kind rationale decisionContext : String)
      (dependsOn : List String) (dependencyCL : Int)
  | verify (hypothesisId checksJson verdict carrierFiles : String)
  | testT (hypothesisId testType result verdict carrierFiles : String)
  | auditT (hypothesisId risks : String)
  | decideT (title winnerId : String) (rejectedIds : List String)
      (contextArg decision rationale consequences characteristics contract : String)
  | auditTree (holonId : String)
  | calculateR (holonId : String)
  | reset (reason : String)
  | unknown (name : String)
  deriving DecidableEq, Repr

/-- Embeds the argument extraction of the dispatcher's `switch`
(server.go:370–485): every string parameter is read through `arg` (so any
non-string JSON value becomes the empty string), and exactly `limit`,
`criteria_verified`, `congruence_level`, `depends_on`, `dependency_cl` and
`rejected_ids` are read with non-string extractors.  It is total: no type
error is raised. -/
def parseToolCall (name : String) (args : List (String × JVal)) : ToolCall :=
  if name = "quint_internalize" then ToolCall.internalize
  else if name = "quint_search" then
    ToolCall.search (argStr args "query") (argStr args "scope") (argStr args "layer_filter")
      (argStr args "status_filter") (argStr args "affected_scope_filter") (argNum args "limit" 10)
  else if name = "quint_resolve" then
    ToolCall.resolveT (argStr args "decision_id") (argStr args "resolution")
      (argStr args "reference") (argStr args "superseded_by") (argStr args "notes")
      (argStr args "valid_until") (argBool args "criteria_verified")
  else if name = "quint_implement" then ToolCall.implementT (argStr args "decision_id")
  else if name = "quint_link" then
    ToolCall.link (argStr args "source_id") (argStr args "target_id")
      (argNum args "congruence_level" 3)
  else if name = "quint_propose" then
    ToolCall.propose (argStr args "title") (argStr args "content") (argStr args "scope")
      (argStr args "kind") (argStr args "rationale") (argStr args "decision_context")
      (argStrList args "depends_on") (argNum args "dependency_cl" 3)
  else if name = "quint_verify" then
    ToolCall.verify (argStr args "hypothesis_id") (argStr args "checks_json")
      (argStr args "verdict") (argStr args "carrier_files")
  else if name = "quint_test" then
    ToolCall.testT (argStr args "hypothesis_id") (argStr args "test_type")
      (argStr args "result") (argStr args "verdict") (argStr args "carrier_files")
  else if name = "quint_audit" then
    ToolCall.auditT (argStr args "hypothesis_id") (argStr args "risks")
  else if name = "quint_decide" then
    ToolCall.decideT (argStr args "title") (argStr args "winner_id")
      (argStrList args "rejected_ids") (argStr args "context") (argStr args "decision")
      (argStr args "rationale") (argStr args "consequences") (argStr args "characteristics")
      (argStr args "contract")
  else if name = "quint_audit_tree" then ToolCall.auditTree (argStr args "holon_id")
  else if name = "quint_calculate_r" then ToolCall.calculateR (argStr args "holon_id")
  else if name = "quint_reset" then ToolCall.reset (argStr args "reason")
  else ToolCall.unknown name

/-- The argument keys a tool reads with a non-string extractor
(server.go:376, 383, 402, 414, 422, 459). -/
def specialKeys : String → List String
  | "quint_search" => ["limit"]
  | "quint_resolve" => ["criteria_verified"]
  | "quint_link" => ["congruence_level"]
  | "quint_propose" => ["depends_on", "dependency_cl"]
  | "quint_decide" => ["rejected_ids"]
  | _ => []

/-- The string a JSON value is coerced to by `arg`: itself for a string,
the empty string for everything else. -/
def strOf : JVal → String
  | JVal.str s => s
  | _ => ""

/-- Replace the value of every argument a tool reads as a string by its
`arg` coercion (`strOf`), leaving the non-string-read keys alone. -/
def coerceArgs (name : String) (args : List (String × JVal)) : List (String × JVal) :=
  args.map (fun kv => if kv.1 ∈ specialKeys name then kv else (kv.1, JVal.str (strOf kv.2)))

/-! ## Concrete stores for witnesses and counterexamples -/

/-- An empty store at phase IDLE. -/
def emptyStore : Store :=
  { holons := [], evidence := [], relations := [], auditLog := [], phase := Phase.idle, now := 0 }

/-- A fresh passing internal evidence row for a holon. -/
def freshPassEv (eid hid : String) : Evidence :=
  { id := eid, holonId := hid, etype := "internal", verdict := "pass",
    validUntil := some 100, isStale := false, staleReason := "", waivedUntil := none }

/-- The S4 / `TestCalculateReliability_CLPenalty` scenario: A and B each
with one fresh passing evidence item, edge B componentOf A at CL1. -/
def c1Store : Store :=
  { emptyStore with
    evidence := [freshPassEv "e1" "A", freshPassEv "e2" "B"]
    relations := [⟨"B", "A", "componentOf", 1⟩] }

/-- A holon with one stale and one fresh passing evidence row
(`TestCalculateReliability_StaleAndFreshEvidence`). -/
def c2Store : Store :=
  { emptyStore with
    evidence :=
      [ freshPassEv "e1" "A"
      , { id := "e2", holonId := "A", etype := "internal", verdict := "pass",
          validUntil := some 100, isStale := true, staleReason := "file changed",
          waivedUntil := none } ] }

/-- The stale evidence row of `c2Store`. -/
def c2StaleEv : Evidence :=
  { id := "e2", holonId := "A", etype := "internal", verdict := "pass",
    validUntil := some 100, isStale := true, staleReason := "file changed",
    waivedUntil := none }

/-- The S7 / `TestCalculateReliability_CycleDetection` scenario: cycle
A → B → C → A of `componentOf` CL3 edges, all holons with fresh passes. -/
def c5CycleStore : Store :=
  { emptyStore with
    evidence := [freshPassEv "e1" "A", freshPassEv "e2" "B", freshPassEv "e3" "C"]
    relations :=
      [ ⟨"B", "A", "componentOf", 3⟩
      , ⟨"C", "B", "componentOf", 3⟩
      , ⟨"A", "C", "componentOf", 3⟩ ] }

/-- A tool body that changes nothing and fails (a storage error). -/
def failBody : Store → Store × Except String String :=
  fun s => (s, Except.error "storage error")

/-- A tool body that changes nothing and succeeds. -/
def okBody : Store → Store × Except String String :=
  fun s => (s, Except.ok "done")

/-- A tool body wrapping `ResetCycle` (appends one audit entry). -/
def resetBody : Store → Store × Except String String :=
  fun s => ((ResetCycle s "session over").1, Except.ok (ResetCycle s "session over").2)

/-- The `TestWLNK_MemberOf_NoPropagation` scenario: `good-member` has a
fresh pass and is `memberOf` `bad-decision`, which has a failing evidence
row. -/
def c7StoreA : Store :=
  { emptyStore with
    evidence :=
      [ freshPassEv "e-good" "good-member"
      , { id := "e-bad", holonId := "bad-decision", etype := "internal", verdict := "fail",
          validUntil := some 100, isStale := false, staleReason := "", waivedUntil := none } ]
    relations := [⟨"good-member", "bad-decision", "memberOf", 3⟩] }

/-- The store `c7StoreA` with all of the evidence of bad-decision removed. -/
def c7StoreB : Store :=
  { emptyStore with
    evidence := [freshPassEv "e-good" "good-member"]
    relations := [⟨"good-member", "bad-decision", "memberOf", 3⟩] }

/-- A store with an L0 holon carrying one stale evidence row, for the
verify scenarios. -/
def c6Store : Store :=
  { emptyStore with
    holons := [{ id := "hypo-1", htype := "hypothesis", kind := "system", layer := "L0" }]
    evidence :=
      [ { id := "e-old", holonId := "hypo-1", etype := "test_result", verdict := "pass",
          validUntil := some 100, isStale := true, staleReason := "carrier file changed",
          waivedUntil := none } ] }

/-- Two unrelated system holons, for the link scenarios. -/
def c9Store : Store :=
  { emptyStore with
    holons :=
      [ { id := "src-h", htype := "hypothesis", kind := "system", layer := "L0" }
      , { id := "tgt-h", htype := "hypothesis", kind := "system", layer := "L0" } ] }

/-! ## Helper lemmas -/

theorem foldl_min_le_init (l : List ℚ) (a : ℚ) : l.foldl min a ≤ a := by
  induction l generalizing a with
  | nil => simp
  | cons b t ih =>
    simpa using le_trans (ih (min a b)) (min_le_left a b)

theorem foldl_min_le_mem (l : List ℚ) (a x : ℚ) (hx : x ∈ l) : l.foldl min a ≤ x := by
  induction l generalizing a with
  | nil => cases hx
  | cons b t ih =>
    rcases List.mem_cons.mp hx with rfl | hmem
    · simpa using le_trans (foldl_min_le_init t (min a x)) (min_le_right a x)
    · simpa using ih (min a b) hmem

theorem foldl_min_eq_init_or_mem (l : List ℚ) (a : ℚ) :
    l.foldl min a = a ∨ ∃ x, x ∈ l ∧ l.foldl min a = x := by
  induction l generalizing a with
  | nil => left; rfl
  | cons b t ih =>
    simp only [List.foldl_cons]
    rcases ih (min a b) with h | ⟨x, hx, hfe⟩
    · rcases le_total a b with hab | hba
      · left; rw [h, min_eq_left hab]
      · right; exact ⟨b, List.mem_cons_self b t, by rw [h, min_eq_right hba]⟩
    · right; exact ⟨x, List.mem_cons_of_mem b hx, hfe⟩

theorem itemScore_le_one (now : Int) (e : Evidence) : itemScore now e ≤ 1 := by
  unfold itemScore
  split_ifs <;> norm_num

theorem itemScore_of_waived (now : Int) (e : Evidence) (h : isWaived now e = true) :
    itemScore now e = 1 := by
  simp [itemScore, h]

/-! ## C2: self score is the weakest link over evidence -/

/-- C2.  For every holon, the calculator's self score is the minimum over
the per-item scores of its non-waived evidence, where each item scores:
stale → 0.2, decayed → 0.1, verdict fail → 0.0, degrade → 0.5, pass → 1.0
(0.9 for external evidence, with the factor "External evidence CL2 penalty
applied"); a holon with no evidence has self score 0.0 with factor
"No evidence". -/
theorem c2_self_score_wlnk (s : Store) (hid : String) :
    (evidenceOf s hid = [] → SelfScore s hid = 0 ∧ "No evidence" ∈ SelfFactors s hid)
    ∧ (∀ e, e ∈ evidenceOf s hid → isWaived s.now e = false →
        SelfScore s hid ≤ itemScore s.now e)
    ∧ ((∃ e, e ∈ evidenceOf s hid ∧ isWaived s.now e = false) →
        ∃ e, e ∈ evidenceOf s hid ∧ isWaived s.now e = false ∧
          SelfScore s hid = itemScore s.now e)
    ∧ (∀ e, isWaived s.now e = false →
        (e.isStale = true → itemScore s.now e = 1/5
          ∧ ("Evidence stale: " ++ e.staleReason) ∈ itemFactors s.now e)
        ∧ (e.isStale = false → isDecayed s.now e = true → itemScore s.now e = 1/10)
        ∧ (e.isStale = false → isDecayed s.now e = false → e.verdict = "fail" →
            itemScore s.now e = 0)
        ∧ (e.isStale = false → isDecayed s.now e = false → e.verdict = "degrade" →
            itemScore s.now e = 1/2)
        ∧ (e.isStale = false → isDecayed s.now e = false → e.verdict = "pass" →
            e.etype = "external" →
            itemScore s.now e = 9/10
              ∧ "External evidence CL2 penalty applied" ∈ itemFactors s.now e)
        ∧ (e.isStale = false → isDecayed s.now e = false → e.verdict = "pass" →
            e.etype ≠ "external" → itemScore s.now e = 1)) := by
  refine ⟨?_, ?_, ?_, ?_⟩
  · intro h
    simp [SelfScore, SelfFactors, h]
  · intro e he hw
    have hne : ¬ (evidenceOf s hid).isEmpty = true := by
      simp only [List.isEmpty_iff]
      intro hE
      rw [hE] at he
      cases he
    simp only [SelfScore, if_neg hne]
    exact foldl_min_le_mem _ 1 _ (List.mem_map_of_mem (itemScore s.now) he)
  · rintro ⟨e0, he0, hw0⟩
    have hne : ¬ (evidenceOf s hid).isEmpty = true := by
      simp only [List.isEmpty_iff]
      intro hE
      rw [hE] at he0
      cases he0
    have hself : SelfScore s hid = ((evidenceOf s hid).map (itemScore s.now)).foldl min 1 := by
      simp only [SelfScore, if_neg hne]
    have hle0 : SelfScore s hid ≤ itemScore s.now e0 := by
      rw [hself]
      exact foldl_min_le_mem _ 1 _ (List.mem_map_of_mem (itemScore s.now) he0)
    rcases foldl_min_eq_init_or_mem ((evidenceOf s hid).map (itemScore s.now)) 1 with h1 | hmem
    · refine ⟨e0, he0, hw0, le_antisymm hle0 ?_⟩
      rw [hself, h1]
      exact itemScore_le_one s.now e0
    · rcases hmem with ⟨x, hxL, hxe⟩
      rcases List.mem_map.mp hxL with ⟨e1, he1, rfl⟩
      cases hw1 : isWaived s.now e1 with
      | true =>
        refine ⟨e0, he0, hw0, le_antisymm hle0 ?_⟩
        rw [hself, hxe, itemScore_of_waived s.now e1 hw1]
        exact itemScore_le_one s.now e0
      | false =>
        exact ⟨e1, he1, hw1, by rw [hself, hxe]⟩
  · intro e hw
    refine ⟨?_, ?_, ?_, ?_, ?_, ?_⟩
    · intro hs
      constructor
      · simp [itemScore, hw, hs]
      · simp [itemFactors, hw, hs]
    · intro hs hd
      simp [itemScore, hw, hs, hd]
    · intro hs hd hv
      simp [itemScore, hw, hs, hd, hv]
    · intro hs hd hv
      simp +decide [itemScore, hw, hs, hd, hv]
    · intro hs hd hv hx
      constructor
      · simp +decide [itemScore, hw, hs, hd, hv, hx]
      · simp +decide [itemFactors, hw, hs, hd, hv, hx]
    · intro hs hd hv hx
      simp +decide [itemScore, hw, hs, hd, hv, hx]

/-- Witness for `c2_self_score_wlnk` at the mixed stale/fresh store of
`TestCalculateReliability_StaleAndFreshEvidence`: the self score cannot
exceed the stale item's 0.2 and is attained at a non-waived item. -/
theorem c2_self_score_wlnk_witness :
    SelfScore c2Store "A" ≤ itemScore c2Store.now c2StaleEv
    ∧ ∃ e, e ∈ evidenceOf c2Store "A" ∧ isWaived c2Store.now e = false
        ∧ SelfScore c2Store "A" = itemScore c2Store.now e := by
  constructor
  · exact (c2_self_score_wlnk c2Store "A").2.1 c2StaleEv (by decide) (by decide)
  · exact (c2_self_score_wlnk c2Store "A").2.2.1 ⟨c2StaleEv, by decide, by decide⟩

/-! ## C1: the congruence-level penalty on dependency scores -/

theorem calcR_succ (s : Store) (fuel : Nat) (visited : List String) (hid : String) :
    calcR s (fuel + 1) visited hid =
      match depScoreList (fun d => calcR s fuel (hid :: visited) d)
          ((depsOf s hid).filter (fun r => decide (r.sourceId ∉ hid :: visited))) with
      | none => none
      | some [] => some (SelfScore s hid)
      | some (q :: qs) => some (min (SelfScore s hid) (qs.foldl min q)) := rfl

theorem clFactor_le_one (cl : Int) (hcl : cl ≤ 3) : clFactor cl ≤ 1 := by
  unfold clFactor
  have h0 : (0 : ℚ) ≤ ((3 - cl : Int) : ℚ) / 5 := by
    apply div_nonneg _ (by norm_num)
    exact_mod_cast Int.sub_nonneg.mpr hcl
  linarith

/-- C1 counterexample: on the spec's own S4 scenario (A with one fresh pass,
B with one fresh pass, edge B componentOf A at CL1 — the scenario of
`TestCalculateReliability_CLPenalty`) the calculator returns 0.6, not the
0.7 the claim states. -/
theorem c1_claim_counterexample :
    CalculateReliability c1Store "A" = some (3/5) ∧ (3/5 : ℚ) ≠ 7/10 := by
  constructor
  · norm_num +decide [CalculateReliability, calcR, depScoreList, depsOf, idUniverse,
      SelfScore, evidenceOf, itemScore, isWaived, isDecayed, isDepRel, clFactor,
      c1Store, emptyStore, freshPassEv, List.filter_cons, decide_eq_true_eq,
      List.dedup_cons_of_mem, List.dedup_cons_of_not_mem, List.isEmpty_cons,
      List.isEmpty_nil]
  · norm_num

/-- C1 (amended).  For every holon A with exactly one dependency B (edge B
componentOf A at congruence level cl ≤ 3) where both A and B have a single
evidence item scoring 1.0 (fresh passing), the calculator applies the
congruence-level factors CL3 = 1.0, CL2 = 0.8, CL1 = 0.6 to the dependency
score, so the final R_eff of A is the CL factor — 0.6 at CL1. -/
theorem c1_cl_penalty_amended (s : Store) (A B : String) (eA eB : Evidence) (cl : Int)
    (hAB : A ≠ B)
    (hev : s.evidence = [eA, eB])
    (heA : eA.holonId = A) (hsA : itemScore s.now eA = 1)
    (heB : eB.holonId = B) (hsB : itemScore s.now eB = 1)
    (hrel : s.relations = [⟨B, A, "componentOf", cl⟩])
    (hcl : cl ≤ 3) :
    CalculateReliability s A = some (clFactor cl)
    ∧ clFactor 3 = 1 ∧ clFactor 2 = 4/5 ∧ clFactor 1 = 3/5 := by
  have hBA : B ≠ A := hAB.symm
  have hevA : evidenceOf s A = [eA] := by
    simp [evidenceOf, hev, List.filter_cons, heA, heB, hBA]
  have hevB : evidenceOf s B = [eB] := by
    simp [evidenceOf, hev, List.filter_cons, heA, heB, hAB]
  have hselfA : SelfScore s A = 1 := by
    simp [SelfScore, hevA, hsA]
  have hselfB : SelfScore s B = 1 := by
    simp [SelfScore, hevB, hsB]
  have hdepsA : depsOf s A = [⟨B, A, "componentOf", cl⟩] := by
    simp +decide [depsOf, hrel, List.filter_cons, isDepRel]
  have hdepsB : depsOf s B = [] := by
    simp [depsOf, hrel, List.filter_cons, isDepRel, hAB]
  have hcalcB : calcR s 2 [A] B = some 1 := by
    rw [show (2 : Nat) = 1 + 1 from rfl, calcR_succ, hdepsB]
    simp [depScoreList, hselfB]
  have hfilA : (depsOf s A).filter (fun r => decide (r.sourceId ∉ A :: ([] : List String)))
      = [⟨B, A, "componentOf", cl⟩] := by
    rw [hdepsA]
    simp [List.filter_cons, hBA]
  have hcalcA : calcR s 3 [] A = some (clFactor cl) := by
    rw [show (3 : Nat) = 2 + 1 from rfl, calcR_succ, hfilA]
    simp only [depScoreList, hcalcB]
    simp [hselfA, min_eq_right (clFactor_le_one cl hcl)]
  have hU : idUniverse s = [B, A] := by
    simp [idUniverse, hrel, List.dedup_cons_of_not_mem, hBA]
  refine ⟨?_, by norm_num [clFactor], by norm_num [clFactor], by norm_num [clFactor]⟩
  rw [CalculateReliability, hU]
  exact hcalcA

/-- Witness for `c1_cl_penalty_amended`: the S4 store at CL1 yields
R_eff(A) = clFactor 1 = 0.6. -/
theorem c1_cl_penalty_amended_witness :
    CalculateReliability c1Store "A" = some (clFactor 1) :=
  (c1_cl_penalty_amended c1Store "A" "B" (freshPassEv "e1" "A") (freshPassEv "e2" "B") 1
    (by decide) rfl rfl
    (by norm_num +decide [itemScore, isWaived, isDecayed, freshPassEv, c1Store, emptyStore])
    rfl
    (by norm_num +decide [itemScore, isWaived, isDecayed, freshPassEv, c1Store, emptyStore])
    rfl (by norm_num)).1

/-! ## C5: cycle safety of the calculator -/

theorem depScoreList_isSome (f : String → Option ℚ) (rs : List Relation)
    (h : ∀ r ∈ rs, (f r.sourceId).isSome = true) :
    (depScoreList f rs).isSome = true := by
  induction rs with
  | nil => simp [depScoreList]
  | cons r t ih =>
    rcases Option.isSome_iff_exists.mp (h r (List.mem_cons_self r t)) with ⟨q, hq⟩
    rcases Option.isSome_iff_exists.mp
      (ih (fun x hx => h x (List.mem_cons_of_mem r hx))) with ⟨qs, hqs⟩
    simp [depScoreList, hq, hqs]

theorem filter_visited_mono (u : List String) (x : String) (visited : List String) :
    (u.filter (fun y => decide (y ∉ x :: visited))).length
      ≤ (u.filter (fun y => decide (y ∉ visited))).length := by
  rw [← List.countP_eq_length_filter, ← List.countP_eq_length_filter]
  apply List.countP_mono_left
  intro y _ hy
  simp only [decide_eq_true_eq] at hy ⊢
  intro hmem
  exact hy (List.mem_cons_of_mem x hmem)

theorem filter_visited_cons_lt (l : List String) (visited : List String) (x : String)
    (hxl : x ∈ l) (hxv : x ∉ visited) :
    (l.filter (fun y => decide (y ∉ x :: visited))).length
      < (l.filter (fun y => decide (y ∉ visited))).length := by
  induction l with
  | nil => cases hxl
  | cons a t ih =>
    rw [List.filter_cons, List.filter_cons]
    rcases List.mem_cons.mp hxl with rfl | hxt
    · have hq : decide (x ∉ x :: visited) = false := by simp
      have hp : decide (x ∉ visited) = true := by simpa using hxv
      rw [hq, hp]
      simpa using Nat.lt_succ_of_le (filter_visited_mono t x visited)
    · by_cases hqa : a ∉ x :: visited
      · have hpa : a ∉ visited := fun hmem => hqa (List.mem_cons_of_mem x hmem)
        have hq : decide (a ∉ x :: visited) = true := by simpa using hqa
        have hp : decide (a ∉ visited) = true := by simpa using hpa
        rw [hq, hp]
        simpa using Nat.succ_lt_succ (ih hxt)
      · have hq : decide (a ∉ x :: visited) = false := by simpa using hqa
        rw [hq]
        simp only [Bool.false_eq_true, if_false]
        by_cases hpa : a ∉ visited
        · have hp : decide (a ∉ visited) = true := by simpa using hpa
          rw [hp]
          simpa using Nat.lt_succ_of_lt (ih hxt)
        · have hp : decide (a ∉ visited) = false := by simpa using hpa
          rw [hp]
          simpa using ih hxt

/-- Fuel adequacy: with more fuel than there are unvisited relation
endpoints, the calculator's recursion never runs out. -/
theorem calcR_isSome (s : Store) :
    ∀ (fuel : Nat) (visited : List String) (hid : String), hid ∉ visited →
      ((idUniverse s).filter (fun y => decide (y ∉ visited))).length < fuel →
      (calcR s fuel visited hid).isSome = true := by
  intro fuel
  induction fuel with
  | zero =>
    intro visited hid _ hlt
    exact absurd hlt (Nat.not_lt_zero _)
  | succ fuel ih =>
    intro visited hid hhv hlt
    rw [calcR_succ]
    have hsome : (depScoreList (fun d => calcR s fuel (hid :: visited) d)
        ((depsOf s hid).filter (fun r => decide (r.sourceId ∉ hid :: visited)))).isSome
          = true := by
      cases hdn : (depsOf s hid).filter (fun r => decide (r.sourceId ∉ hid :: visited)) with
      | nil => simp [depScoreList]
      | cons r0 rs0 =>
        have hr0 : r0 ∈ (depsOf s hid).filter
            (fun r => decide (r.sourceId ∉ hid :: visited)) := by
          rw [hdn]; exact List.mem_cons_self r0 rs0
        have hr0d := List.mem_filter.mp hr0
        have hr0rel := List.mem_filter.mp hr0d.1
        have hr0tgt : r0.targetId = hid := by
          have := hr0rel.2
          simp only [Bool.and_eq_true, decide_eq_true_eq] at this
          exact this.1
        have hidU : hid ∈ idUniverse s := by
          rw [idUniverse, List.mem_dedup, List.mem_append]
          right
          rw [← hr0tgt]
          exact List.mem_map_of_mem (fun r => r.targetId) hr0rel.1
        have hmeas : ((idUniverse s).filter
            (fun y => decide (y ∉ hid :: visited))).length < fuel := by
          have hstep := filter_visited_cons_lt (idUniverse s) visited hid hidU hhv
          omega
        apply depScoreList_isSome
        intro r hr
        have hrf : r ∈ (depsOf s hid).filter
            (fun r => decide (r.sourceId ∉ hid :: visited)) := by
          rw [hdn]; exact hr
        have hnotv : r.sourceId ∉ hid :: visited := by
          simpa using (List.mem_filter.mp hrf).2
        exact ih (hid :: visited) r.sourceId hnotv hmeas
    rcases Option.isSome_iff_exists.mp hsome with ⟨v, hv⟩
    rw [hv]
    cases v <;> simp

/-- C5.  For every store — including cyclic componentOf/constituentOf
graphs — the assurance calculator terminates with a value (its fuel always
suffices, so no error is possible); and on the cycle A→B→C→A of CL3 edges
with all three holons carrying fresh passing evidence, R_eff(A) = 1.0. -/
theorem c5_cycle_safety :
    (∀ (s : Store) (hid : String), (CalculateReliability s hid).isSome = true)
    ∧ CalculateReliability c5CycleStore "A" = some 1 := by
  constructor
  · intro s hid
    apply calcR_isSome s _ [] hid (by simp)
    exact Nat.lt_succ_of_le (List.length_filter_le _ _)
  · norm_num +decide [CalculateReliability, calcR, depScoreList, depsOf, idUniverse,
      SelfScore, evidenceOf, itemScore, isWaived, isDecayed, isDepRel, clFactor,
      c5CycleStore, emptyStore, freshPassEv, List.filter_cons, decide_eq_true_eq,
      List.dedup_cons_of_mem, List.dedup_cons_of_not_mem, List.isEmpty_cons,
      List.isEmpty_nil]

/-! ## C7: memberOf edges do not propagate R_eff -/

theorem depScoreList_congr (f g : String → Option ℚ) (rs : List Relation)
    (h : ∀ r ∈ rs, f r.sourceId = g r.sourceId) :
    depScoreList f rs = depScoreList g rs := by
  induction rs with
  | nil => rfl
  | cons r t ih =>
    simp only [depScoreList, h r (List.mem_cons_self r t),
      ih (fun x hx => h x (List.mem_cons_of_mem r hx))]

/-- The calculator's value at a holon depends only on the clock, the
relations, and the evidence of holons in its dependency closure. -/
theorem calcR_evidence_congr (s t : Store)
    (hrel : s.relations = t.relations) (hnow : s.now = t.now) :
    ∀ (fuel : Nat) (visited : List String) (hid : String),
      (∀ x, Reaches s hid x → evidenceOf s x = evidenceOf t x) →
      calcR s fuel visited hid = calcR t fuel visited hid := by
  intro fuel
  induction fuel with
  | zero => intro visited hid _; rfl
  | succ fuel ih =>
    intro visited hid hagree
    rw [calcR_succ, calcR_succ]
    have hdeps : depsOf t hid = depsOf s hid := by rw [depsOf, depsOf, hrel]
    have hself : SelfScore s hid = SelfScore t hid := by
      rw [SelfScore, SelfScore, hagree hid Relation.ReflTransGen.refl, hnow]
    rw [hdeps]
    have hds : depScoreList (fun d => calcR s fuel (hid :: visited) d)
        ((depsOf s hid).filter (fun r => decide (r.sourceId ∉ hid :: visited)))
        = depScoreList (fun d => calcR t fuel (hid :: visited) d)
        ((depsOf s hid).filter (fun r => decide (r.sourceId ∉ hid :: visited))) := by
      apply depScoreList_congr
      intro r hr
      have hrd := List.mem_filter.mp hr
      have hrrel := List.mem_filter.mp hrd.1
      have hrp : r.targetId = hid ∧ isDepRel r.relationType = true := by
        have h2 := hrrel.2
        simp only [Bool.and_eq_true, decide_eq_true_eq] at h2
        exact h2
      have hstep : DepStep s hid r.sourceId := ⟨r, hrrel.1, hrp.1, hrp.2, rfl⟩
      apply ih (hid :: visited) r.sourceId
      intro x hx
      exact hagree x (Relation.ReflTransGen.head hstep hx)
    rw [hds, hself]

/-- C7.  For every pair of holons A and B where A is related to B only by a
memberOf edge — B is not in A's componentOf/constituentOf dependency
closure — the R_eff computed for A is independent of B: two stores with the
same relations and clock that differ only in B's evidence yield the same
R_eff for A. -/
theorem c7_memberOf_independence (s t : Store) (A B : String)
    (hrel : s.relations = t.relations) (hnow : s.now = t.now)
    (hmember : (⟨A, B, "memberOf", 3⟩ : Relation) ∈ s.relations)
    (hev : ∀ x, x ≠ B → evidenceOf s x = evidenceOf t x)
    (hreach : ¬ Reaches s A B) :
    CalculateReliability s A = CalculateReliability t A := by
  have hU : idUniverse s = idUniverse t := by rw [idUniverse, idUniverse, hrel]
  rw [CalculateReliability, CalculateReliability, ← hU]
  apply calcR_evidence_congr s t hrel hnow
  intro x hx
  apply hev
  intro hxB
  exact hreach (hxB ▸ hx)

/-- No dependency edge exists in the memberOf-only store of
`TestWLNK_MemberOf_NoPropagation`. -/
theorem c7StoreA_no_depStep (x y : String) : ¬ DepStep c7StoreA x y := by
  rintro ⟨r, hr, -, hdep, -⟩
  have hr' : r = ⟨"good-member", "bad-decision", "memberOf", 3⟩ := by
    simpa [c7StoreA, emptyStore] using hr
  rw [hr'] at hdep
  exact absurd hdep (by decide)

/-- Witness for `c7_memberOf_independence`: removing all of
`bad-decision`'s evidence does not change `good-member`'s R_eff. -/
theorem c7_memberOf_independence_witness :
    CalculateReliability c7StoreA "good-member"
      = CalculateReliability c7StoreB "good-member" := by
  apply c7_memberOf_independence c7StoreA c7StoreB "good-member" "bad-decision" rfl rfl
    (by decide)
  · intro x hx
    have hbx : ¬ ("bad-decision" = x) := fun hEq => hx hEq.symm
    simp [evidenceOf, c7StoreA, c7StoreB, emptyStore, freshPassEv, List.filter_cons, hbx]
  · intro h
    rcases Relation.ReflTransGen.cases_head h with hEq | ⟨c, hstep, -⟩
    · exact absurd hEq (by decide)
    · exact c7StoreA_no_depStep _ _ hstep

/-! ## C6: verify PASS promotes to L1 and clears staleness -/

theorem layerOf_setLayer (st : Store) (hid lay : String)
    (h : (layerOf st hid).isSome = true) :
    layerOf (setLayer st hid lay) hid = some lay := by
  rcases hf : st.holons.find? (fun h => h.id = hid) with - | h0
  · rw [layerOf, hf] at h
    cases h
  · have hid0 : h0.id = hid := by
      have := List.find?_some hf
      simpa using this
    have hpred : (fun h : Holon =>
        decide ((if h.id = hid then { h with layer := lay } else h).id = hid))
        = (fun h : Holon => decide (h.id = hid)) := by
      funext x
      by_cases hx : x.id = hid <;> simp [hx]
    rw [layerOf, setLayer, List.find?_map]
    simp only [Function.comp_def]
    rw [hpred, hf]
    simp [hid0]

/-- C6.  For every holon at layer L0, verify with verdict PASS sets its
layer to L1 and clears the staleness of all evidence on that holon, while
verify with verdict FAIL or REFINE sets its layer to invalid; a FAIL
verdict appends its evidence record and leaves all existing evidence rows —
including their stale marks — untouched. -/
theorem c6_verify_layer_and_staleness (st : Store) (hid checks carriers : String)
    (h0 : layerOf st hid = some "L0") :
    layerOf (VerifyHypothesis st hid checks "PASS" carriers).1 hid = some "L1"
    ∧ (∀ e, e ∈ (VerifyHypothesis st hid checks "PASS" carriers).1.evidence →
        e.holonId = hid → e.isStale = false)
    ∧ layerOf (VerifyHypothesis st hid checks "FAIL" carriers).1 hid = some "invalid"
    ∧ layerOf (VerifyHypothesis st hid checks "REFINE" carriers).1 hid = some "invalid"
    ∧ (VerifyHypothesis st hid checks "FAIL" carriers).1.evidence
        = st.evidence ++ [logicCheckEvidence hid checks "FAIL"] := by
  have hsome : (layerOf st hid).isSome = true := by rw [h0]; rfl
  have hPASS : (VerifyHypothesis st hid checks "PASS" carriers).1
      = { setLayer st hid "L1" with
          evidence := clearStaleForHolon st.evidence hid
            ++ [logicCheckEvidence hid checks "PASS"] } := by
    simp +decide [VerifyHypothesis, setLayer]
  have hFAIL : (VerifyHypothesis st hid checks "FAIL" carriers).1
      = { setLayer st hid "invalid" with
          evidence := st.evidence ++ [logicCheckEvidence hid checks "FAIL"] } := by
    simp +decide [VerifyHypothesis, setLayer]
  have hREFINE : (VerifyHypothesis st hid checks "REFINE" carriers).1
      = { setLayer st hid "invalid" with
          evidence := st.evidence ++ [logicCheckEvidence hid checks "REFINE"] } := by
    simp +decide [VerifyHypothesis, setLayer]
  refine ⟨?_, ?_, ?_, ?_, ?_⟩
  · rw [hPASS]
    have : layerOf { setLayer st hid "L1" with
        evidence := clearStaleForHolon st.evidence hid
          ++ [logicCheckEvidence hid checks "PASS"] } hid
        = layerOf (setLayer st hid "L1") hid := rfl
    rw [this]
    exact layerOf_setLayer st hid "L1" hsome
  · intro e he hehid
    rw [hPASS] at he
    simp only at he
    rcases List.mem_append.mp he with hmem | hmem
    · rcases List.mem_map.mp hmem with ⟨e0, he0, rfl⟩
      by_cases h00 : e0.holonId = hid
      · simp [h00]
      · rw [if_neg h00] at hehid ⊢
        exact absurd hehid h00
    · rcases List.mem_singleton.mp hmem with rfl
      rfl
  · rw [hFAIL]
    exact layerOf_setLayer st hid "invalid" hsome
  · rw [hREFINE]
    exact layerOf_setLayer st hid "invalid" hsome
  · rw [hFAIL]

/-- Witness for `c6_verify_layer_and_staleness` at a store with one L0
holon carrying stale evidence. -/
theorem c6_verify_layer_and_staleness_witness :
    layerOf (VerifyHypothesis c6Store "hypo-1" "checks" "PASS" "").1 "hypo-1" = some "L1"
    ∧ layerOf (VerifyHypothesis c6Store "hypo-1" "checks" "FAIL" "").1 "hypo-1"
        = some "invalid" :=
  ⟨(c6_verify_layer_and_staleness c6Store "hypo-1" "checks" "" (by decide)).1,
   (c6_verify_layer_and_staleness c6Store "hypo-1" "checks" "" (by decide)).2.2.1⟩

/-! ## C8: reset only changes the phase and appends one audit entry -/

/-- C8.  For every store state and every reason string, reset sets the
phase to IDLE and appends exactly one audit entry of operation
`cycle_reset` (with the reason defaulted when empty), and leaves everything
else unchanged: holons, evidence and relations are untouched, so in
particular the count of DRR-typed holons is the same before and after. -/
theorem c8_reset_frame (st : Store) (reason : String) :
    (ResetCycle st reason).1.phase = Phase.idle
    ∧ (ResetCycle st reason).1.auditLog
        = st.auditLog
          ++ [resetAuditEntry (if reason = "" then "user requested reset" else reason)]
    ∧ (resetAuditEntry (if reason = "" then "user requested reset" else reason)).operation
        = "cycle_reset"
    ∧ (ResetCycle st reason).1.holons = st.holons
    ∧ (ResetCycle st reason).1.evidence = st.evidence
    ∧ (ResetCycle st reason).1.relations = st.relations
    ∧ drrCount (ResetCycle st reason).1 = drrCount st :=
  ⟨rfl, rfl, rfl, rfl, rfl, rfl, rfl⟩

/-! ## C3: the dispatcher's audit writes -/

/-- C3 counterexample: a successful tool call passes through the
dispatcher with **zero** audit entries written by the dispatcher (the
claim demands exactly one SUCCESS entry), and a failing call likewise
produces no ERROR entry at the dispatch layer (server.go:487–496 sends the
response without any audit write). -/
theorem c3_claim_counterexample :
    (handleToolsCall emptyStore "quint_calculate_r" none okBody).response.isError = false
    ∧ (handleToolsCall emptyStore "quint_calculate_r" none okBody).dispatcherAudit = []
    ∧ (handleToolsCall emptyStore "quint_calculate_r" none failBody).response.isError = true
    ∧ (handleToolsCall emptyStore "quint_calculate_r" none failBody).dispatcherAudit = [] :=
  ⟨rfl, rfl, rfl, rfl⟩

/-- C3 (amended).  The dispatcher writes exactly one audit entry — result
BLOCKED — when and only when the precondition check fails, and writes no
audit entry of its own on tool success or tool error (tools append their
own entries inside their bodies); the dispatch layer never updates or
deletes audit rows: whenever the tool body only appends to the audit log,
the log before the call is a prefix of the log after it. -/
theorem c3_dispatcher_audit_amended (st : Store) (name msg : String)
    (body : Store → Store × Except String String) :
    (handleToolsCall st name (some msg) body).dispatcherAudit = [blockedEntry name msg]
    ∧ (handleToolsCall st name (some msg) body).state.auditLog
        = st.auditLog ++ [blockedEntry name msg]
    ∧ (handleToolsCall st name (some msg) body).response.isError = true
    ∧ (handleToolsCall st name none body).dispatcherAudit = []
    ∧ ((∀ u : Store, u.auditLog <+: (body u).1.auditLog) →
        st.auditLog <+: (handleToolsCall st name none body).state.auditLog) := by
  refine ⟨rfl, rfl, rfl, ?_, ?_⟩
  all_goals
    rcases hb : body (match phasePreWrite name with
      | some p => { st with phase := p }
      | none => st) with ⟨st2, r⟩
  · cases r <;> simp [handleToolsCall, hb]
  · intro hbody
    have hst1 : (match phasePreWrite name with
        | some p => { st with phase := p }
        | none => st).auditLog = st.auditLog := by
      cases phasePreWrite name <;> rfl
    have hpre : st.auditLog <+: st2.auditLog := by
      have h1 := hbody (match phasePreWrite name with
        | some p => { st with phase := p }
        | none => st)
      rw [hst1, hb] at h1
      exact h1
    cases r with
    | ok out =>
      by_cases hnm : name = "quint_decide"
      · subst hnm
        simpa [handleToolsCall, hb] using hpre
      · simpa [handleToolsCall, hb, hnm] using hpre
    | error e =>
      simpa [handleToolsCall, hb] using hpre

/-- Witness for `c3_dispatcher_audit_amended`: a blocked call writes the
BLOCKED entry, and a reset body (which appends its own audit entry) leaves
the prior log as a prefix. -/
theorem c3_dispatcher_audit_amended_witness :
    (handleToolsCall emptyStore "quint_reset" (some "blocked") okBody).dispatcherAudit
      = [blockedEntry "quint_reset" "blocked"]
    ∧ emptyStore.auditLog
        <+: (handleToolsCall emptyStore "quint_reset" none resetBody).state.auditLog := by
  constructor
  · exact (c3_dispatcher_audit_amended emptyStore "quint_reset" "blocked" okBody).1
  · apply (c3_dispatcher_audit_amended emptyStore "quint_reset" "blocked" resetBody).2.2.2.2
    intro u
    exact List.prefix_append u.auditLog [resetAuditEntry "session over"]

/-! ## C4: no dispatcher-level transaction -/

/-- C4 counterexample: a failed `quint_verify` call does **not** leave the
persisted state unchanged — the dispatcher sets and saves phase DEDUCTION
before running the tool body (server.go:428–431), and performs no rollback
when the body errors. -/
theorem c4_claim_counterexample :
    (handleToolsCall emptyStore "quint_verify" none failBody).response.isError = true
    ∧ (handleToolsCall emptyStore "quint_verify" none failBody).state ≠ emptyStore
    ∧ (handleToolsCall emptyStore "quint_verify" none failBody).state.phase
        = Phase.deduction
    ∧ emptyStore.phase = Phase.idle := by
  refine ⟨rfl, ?_, rfl, rfl⟩
  intro h
  have hph : (handleToolsCall emptyStore "quint_verify" none failBody).state.phase
      = emptyStore.phase := by rw [h]
  exact absurd hph (by decide)

/-- C4 (amended).  A tool call is not wrapped in a dispatcher-level
transaction: when the tool body fails, the dispatcher keeps whatever state
the body left behind, and for `quint_verify` the phase change to DEDUCTION
written before the body persists — so the state after a failed call can
differ from the state before it (any writes the body itself committed
before failing persist as well). -/
theorem c4_no_rollback_amended (st : Store) (e : String)
    (body : Store → Store × Except String String)
    (hbody : (body { st with phase := Phase.deduction }).2 = Except.error e) :
    (handleToolsCall st "quint_verify" none body).state
        = (body { st with phase := Phase.deduction }).1
    ∧ (handleToolsCall st "quint_verify" none body).response
        = { text := e, isError := true }
    ∧ ((∀ u : Store, (body u).1 = u) →
        (handleToolsCall st "quint_verify" none body).state
          = { st with phase := Phase.deduction }) := by
  rcases hb : body { st with phase := Phase.deduction } with ⟨st2, r⟩
  have hr : r = Except.error e := by rw [hb] at hbody; exact hbody
  subst hr
  refine ⟨?_, ?_, ?_⟩
  · simp [handleToolsCall, phasePreWrite, hb]
  · simp [handleToolsCall, phasePreWrite, hb]
  · intro hid
    have h2 : st2 = { st with phase := Phase.deduction } := by
      have := hid { st with phase := Phase.deduction }
      rw [hb] at this
      exact this
    simp [handleToolsCall, phasePreWrite, hb, h2]

/-- Witness for `c4_no_rollback_amended`: a body that writes nothing and
fails still leaves the phase at DEDUCTION. -/
theorem c4_no_rollback_amended_witness :
    (handleToolsCall emptyStore "quint_verify" none failBody).state
      = { emptyStore with phase := Phase.deduction } :=
  (c4_no_rollback_amended emptyStore "storage error" failBody rfl).2.2 (fun _ => rfl)

/-! ## C9: out-of-range congruence levels -/

/-- C9 counterexample: `LinkHolons` with congruence level 0 (outside
{1,2,3}) does **not** fail with `invalid_argument` — it succeeds and
creates the edge with the default CL 3, exactly as
`TestLinkHolons_CLValidation` demands ("LinkHolons with CL=0 should
default to 3"). -/
theorem c9_claim_counterexample :
    isOkE (LinkHolons c9Store "src-h" "tgt-h" 0).2 = true
    ∧ (LinkHolons c9Store "src-h" "tgt-h" 0).1.relations
        = [⟨"src-h", "tgt-h", "componentOf", 3⟩] := by decide

/-- C9 (amended).  A link call whose congruence level is outside {1,2,3}
succeeds (given existing holons, no cycle and no duplicate) and creates the
edge with the default congruence level 3; a propose call whose
`dependency_cl` is outside {1,2,3} fails with an `invalid_argument` error
and leaves the store unchanged, so no relation edge is created. -/
theorem c9_cl_handling_amended :
    (∀ (st : Store) (src tgt : String) (cl : Int) (hs : Holon),
      findHolon st src = some hs →
      (findHolon st tgt).isSome = true →
      reachableB st.relations (st.relations.length + 1) tgt src = false →
      st.relations.any (fun r => r.sourceId == src && r.targetId == tgt
        && r.relationType == relTypeForKind hs.kind) = false →
      (cl < 1 ∨ 3 < cl) →
      isOkE (LinkHolons st src tgt cl).2 = true
        ∧ (LinkHolons st src tgt cl).1.relations
            = st.relations ++ [⟨src, tgt, relTypeForKind hs.kind, 3⟩])
    ∧ (∀ (st : Store) (title content scope kind rationale dc : String)
        (deps : List String) (cl : Int),
        (kind = "system" ∨ kind = "episteme") →
        (cl < 1 ∨ 3 < cl) →
        ProposeHypothesis st title content scope kind rationale dc deps cl
          = (st, Except.error "invalid_argument: dependency_cl must be in {1,2,3}")) := by
  constructor
  · intro st src tgt cl hs hsrc htgt hcy hdup hcl
    rcases Option.isSome_iff_exists.mp htgt with ⟨ht, hteq⟩
    have hnotcl : ¬ (1 ≤ cl ∧ cl ≤ 3) := by rcases hcl with h | h <;> omega
    simp [LinkHolons, hsrc, hteq, hcy, hdup, hnotcl, isOkE]
  · intro st title content scope kind rationale dc deps cl hk hcl
    have hnotcl : ¬ (1 ≤ cl ∧ cl ≤ 3) := by rcases hcl with h | h <;> omega
    rw [ProposeHypothesis, if_neg (not_not_intro hk), if_pos hnotcl]

/-- Witness for `c9_cl_handling_amended`: linking two existing holons at
CL 0 creates a CL3 edge, and proposing with `dependency_cl = 0` is
rejected with no state change. -/
theorem c9_cl_handling_amended_witness :
    (LinkHolons c9Store "src-h" "tgt-h" 0).1.relations
        = c9Store.relations ++ [⟨"src-h", "tgt-h", relTypeForKind "system", 3⟩]
    ∧ ProposeHypothesis c9Store "Title" "content" "scope" "system" "rationale" "" [] 0
        = (c9Store, Except.error "invalid_argument: dependency_cl must be in {1,2,3}") := by
  constructor
  · exact (c9_cl_handling_amended.1 c9Store "src-h" "tgt-h" 0
      ⟨"src-h", "hypothesis", "system", "L0"⟩ (by decide) (by decide) (by decide) (by decide)
      (Or.inl (by norm_num))).2
  · exact c9_cl_handling_amended.2 c9Store "Title" "content" "scope" "system" "rationale" ""
      [] 0 (Or.inl rfl) (Or.inl (by norm_num))

/-! ## C10: the dispatcher coerces non-string arguments to "" -/

theorem lookupJ_coerce (name : String) (args : List (String × JVal)) (k : String) :
    lookupJ (coerceArgs name args) k
      = (lookupJ args k).map
          (fun v => if k ∈ specialKeys name then v else JVal.str (strOf v)) := by
  induction args with
  | nil => rfl
  | cons kv rest ih =>
    rcases kv with ⟨k0, v0⟩
    have hco : coerceArgs name ((k0, v0) :: rest)
        = (if k0 ∈ specialKeys name then (k0, v0) else (k0, JVal.str (strOf v0)))
          :: coerceArgs name rest := rfl
    rw [hco]
    by_cases hs : k0 ∈ specialKeys name
    · rw [if_pos hs]
      by_cases hk : k0 = k
      · subst hk
        rw [show lookupJ ((k0, v0) :: coerceArgs name rest) k0 = some v0 from by
            rw [lookupJ, if_pos rfl],
          show lookupJ ((k0, v0) :: rest) k0 = some v0 from by
            rw [lookupJ, if_pos rfl]]
        simp only [Option.map_some']
        rw [if_pos hs]
      · simp only [lookupJ, if_neg hk]
        exact ih
    · rw [if_neg hs]
      by_cases hk : k0 = k
      · subst hk
        rw [show lookupJ ((k0, JVal.str (strOf v0)) :: coerceArgs name rest) k0
              = some (JVal.str (strOf v0)) from by rw [lookupJ, if_pos rfl],
          show lookupJ ((k0, v0) :: rest) k0 = some v0 from by
            rw [lookupJ, if_pos rfl]]
        simp only [Option.map_some']
        rw [if_neg hs]
      · simp only [lookupJ, if_neg hk]
        exact ih

theorem argStr_coerce (name : String) (args : List (String × JVal)) (k : String) :
    argStr (coerceArgs name args) k = argStr args k := by
  rw [argStr, argStr, lookupJ_coerce]
  cases lookupJ args k with
  | none => rfl
  | some v =>
    by_cases hs : k ∈ specialKeys name
    · simp [hs]
    · cases v <;> simp [hs, strOf]

theorem argNum_coerce (name : String) (args : List (String × JVal)) (k : String)
    (d : Int) (hk : k ∈ specialKeys name) :
    argNum (coerceArgs name args) k d = argNum args k d := by
  rw [argNum, argNum, lookupJ_coerce]
  cases lookupJ args k with
  | none => rfl
  | some v => simp [hk]

theorem argBool_coerce (name : String) (args : List (String × JVal)) (k : String)
    (hk : k ∈ specialKeys name) :
    argBool (coerceArgs name args) k = argBool args k := by
  rw [argBool, argBool, lookupJ_coerce]
  cases lookupJ args k with
  | none => rfl
  | some v => simp [hk]

theorem argStrList_coerce (name : String) (args : List (String × JVal)) (k : String)
    (hk : k ∈ specialKeys name) :
    argStrList (coerceArgs name args) k = argStrList args k := by
  rw [argStrList, argStrList, lookupJ_coerce]
  cases lookupJ args k with
  | none => rfl
  | some v => simp [hk]

/-- C10.  For every tools/call request, the dispatcher silently coerces any
argument whose JSON value is not a string to the empty string before
invoking the tool — replacing every non-string value of a string-read
argument by `JVal.str ""` changes nothing in the parsed call — and only
`limit`, `congruence_level`, `dependency_cl`, `criteria_verified`,
`depends_on` and `rejected_ids` (the `specialKeys`) are read with
non-string extractors; `parseToolCall` is total, so no type error is ever
raised at the dispatch layer. -/
theorem c10_dispatcher_string_coercion :
    (∀ (name : String) (args : List (String × JVal)),
      parseToolCall name (coerceArgs name args) = parseToolCall name args)
    ∧ (∀ n : Int, strOf (JVal.num n) = "")
    ∧ (∀ b : Bool, strOf (JVal.boolean b) = "")
    ∧ (∀ xs : List JVal, strOf (JVal.arr xs) = "")
    ∧ strOf JVal.obj = "" ∧ strOf JVal.null = "" := by
  refine ⟨?_, fun _ => rfl, fun _ => rfl, fun _ => rfl, rfl, rfl⟩
  intro name args
  by_cases h1 : name = "quint_internalize"
  · subst h1; rfl
  by_cases h2 : name = "quint_search"
  · subst h2
    simp only [parseToolCall, String.reduceEq, reduceIte, argStr_coerce]
    rw [argNum_coerce _ _ _ _ (by decide)]
  by_cases h3 : name = "quint_resolve"
  · subst h3
    simp only [parseToolCall, String.reduceEq, reduceIte, argStr_coerce]
    rw [argBool_coerce _ _ _ (by decide)]
  by_cases h4 : name = "quint_implement"
  · subst h4
    simp only [parseToolCall, String.reduceEq, reduceIte, argStr_coerce]
  by_cases h5 : name = "quint_link"
  · subst h5
    simp only [parseToolCall, String.reduceEq, reduceIte, argStr_coerce]
    rw [argNum_coerce _ _ _ _ (by decide)]
  by_cases h6 : name = "quint_propose"
  · subst h6
    simp only [parseToolCall, String.reduceEq, reduceIte, argStr_coerce]
    rw [argStrList_coerce _ _ _ (by decide), argNum_coerce _ _ _ _ (by decide)]
  by_cases h7 : name = "quint_verify"
  · subst h7
    simp only [parseToolCall, String.reduceEq, reduceIte, argStr_coerce]
  by_cases h8 : name = "quint_test"
  · subst h8
    simp only [parseToolCall, String.reduceEq, reduceIte, argStr_coerce]
  by_cases h9 : name = "quint_audit"
  · subst h9
    simp only [parseToolCall, String.reduceEq, reduceIte, argStr_coerce]
  by_cases h10 : name = "quint_decide"
  · subst h10
    simp only [parseToolCall, String.reduceEq, reduceIte, argStr_coerce]
    rw [argStrList_coerce _ _ _ (by decide)]
  by_cases h11 : name = "quint_audit_tree"
  · subst h11
    simp only [parseToolCall, String.reduceEq, reduceIte, argStr_coerce]
  by_cases h12 : name = "quint_calculate_r"
  · subst h12
    simp only [parseToolCall, String.reduceEq, reduceIte, argStr_coerce]
  by_cases h13 : name = "quint_reset"
  · subst h13
    simp only [parseToolCall, String.reduceEq, reduceIte, argStr_coerce]
  simp only [parseToolCall, if_neg h1, if_neg h2, if_neg h3, if_neg h4, if_neg h5,
    if_neg h6, if_neg h7, if_neg h8, if_neg h9, if_neg h10, if_neg h11, if_neg h12,
    if_neg h13]

end Quint
